import Mathlib

/-!
Shallow embedding of the mzML chromatogram viewer's extraction logic.

Sources: `src/app_stable.py` (clean) and `src/app.py` (which contains an
unresolved git merge conflict; its HEAD side gives divergent variants of
`extract_mass_spectra` and `extract_eic`, while its other side coincides
textually with `app_stable.py` and is therefore covered by the `AppStable`
definitions below).

Numbers are modelled by `ℚ` (exact real arithmetic over the literals the
code manipulates). A pyopenms spectrum carries a retention time and two
parallel arrays of m/z and intensity values of equal length; we store the
underlying peak list and recover the parallel arrays as its projections,
exactly what `get_peaks()` returns in the tuple branch the code uses.
-/

/-- One scan record: retention time plus the peak list whose projections are
the parallel m/z and intensity arrays. -/
structure Spectrum where
  rt : ℚ
  peaks : List (ℚ × ℚ)
deriving Repr, DecidableEq

/-- Python `spectrum.getRT()`. -/
def Spectrum.getRT (s : Spectrum) : ℚ := s.rt

/-- Python `spectrum.get_peaks()[0]`: the m/z array. -/
def Spectrum.mz_values (s : Spectrum) : List ℚ := s.peaks.map Prod.fst

/-- Python `spectrum.get_peaks()[1]`: the intensity array. -/
def Spectrum.intensity_values (s : Spectrum) : List ℚ := s.peaks.map Prod.snd

/-- One data point of a chromatogram record: Python `p.getRT()` and
`p.getIntensity()`. -/
structure ChromPeak where
  rt : ℚ
  intensity : ℚ
deriving Repr, DecidableEq

/-- The in-memory experiment loaded from an mzML file: a list of spectra and
a list of chromatogram records, each record a list of data points. -/
structure MSExperiment where
  spectra : List Spectrum
  chromatograms : List (List ChromPeak)
deriving Repr, DecidableEq

/-- Python `exp.getSpectra()`. -/
def MSExperiment.getSpectra (e : MSExperiment) : List Spectrum := e.spectra

/-- Python `exp.getChromatograms()`. -/
def MSExperiment.getChromatograms (e : MSExperiment) : List (List ChromPeak) :=
  e.chromatograms

/-- One row of the flattened peak table of `app_stable.py`: columns
`Retention Time (s)`, `m/z`, `Intensity`. -/
structure PeakRow where
  rt : ℚ
  mz : ℚ
  intensity : ℚ
deriving Repr, DecidableEq

/-- Descending-intensity comparison used by
`df.sort_values('Intensity', ascending=False)`. -/
def intensityGE (a b : PeakRow) : Prop := b.intensity ≤ a.intensity

instance : DecidableRel intensityGE := fun a b =>
  inferInstanceAs (Decidable (b.intensity ≤ a.intensity))

instance : IsTotal PeakRow intensityGE := ⟨fun a b => le_total b.intensity a.intensity⟩

instance : IsTrans PeakRow intensityGE := ⟨fun _ _ _ h1 h2 => le_trans h2 h1⟩

namespace AppStable

/-- The function `extract_chromatogram` of `src/app_stable.py` (lines 61-72).
`exp.getChromatograms()` empty yields the Python pair `(None, None)`;
otherwise the first record's `get_peaks()` tuple of parallel time and
intensity arrays is returned. -/
def extract_chromatogram (exp : MSExperiment) : Option (List ℚ) × Option (List ℚ) :=
  match exp.getChromatograms with
  | [] => (none, none)
  | chrom :: _ => (some (chrom.map ChromPeak.rt), some (chrom.map ChromPeak.intensity))

/-- The row list built by the nested loop of `extract_mass_spectra` in
`src/app_stable.py` (lines 80-93): for every spectrum in order, for every
`(mz, intensity)` of `zip(mz_values, intensity_values)` in order, one row
tagged with that spectrum's retention time. -/
def flattenRows (spectra : List Spectrum) : List PeakRow :=
  spectra.flatMap fun s =>
    (s.mz_values.zip s.intensity_values).map fun p => ⟨s.getRT, p.1, p.2⟩

/-- The function `extract_mass_spectra` of `src/app_stable.py` (lines 74-106):
flatten all spectra into rows, return the empty table when there are no rows,
otherwise sort by intensity descending. pandas `sort_values` leaves the order
among equal intensities unspecified (quicksort); we model the sort with the
stable `insertionSort`, which realises the same sorted-descending contract. -/
def extract_mass_spectra (exp : MSExperiment) : List PeakRow :=
  let rows := flattenRows exp.getSpectra
  if rows = [] then []
  else List.insertionSort intensityGE rows

/-- Python `mass_df.head(n)` (line 333 uses `n = 10`): the first `n` rows of
the table. -/
def head (df : List PeakRow) (n : ℕ) : List PeakRow := df.take n

/-- The peaks selected by the list comprehension of `extract_eic` in
`src/app_stable.py` (lines 124-127): the pairs of
`zip(mz_values, intensity_values)` with `abs(mz - target_mass) <= tolerance`. -/
def matching_peaks (target_mass tolerance : ℚ) (s : Spectrum) : List (ℚ × ℚ) :=
  (s.mz_values.zip s.intensity_values).filter fun p => |p.1 - target_mass| ≤ tolerance

/-- The value `matching_intensities` of `extract_eic` in `src/app_stable.py`:
the intensity component of each selected pair. -/
def matching_intensities (target_mass tolerance : ℚ) (s : Spectrum) : List ℚ :=
  (matching_peaks target_mass tolerance s).map Prod.snd

/-- The per-spectrum loop of `extract_eic` in `src/app_stable.py` (lines
113-134): each spectrum appends its retention time and either the sum of its
matching intensities (when some peak matches) or `0` (when none does). -/
def eicLoop (target_mass tolerance : ℚ) : List Spectrum → List ℚ × List ℚ
  | [] => ([], [])
  | spectrum :: rest =>
    let mi := matching_intensities target_mass tolerance spectrum
    let tail := eicLoop target_mass tolerance rest
    if mi ≠ [] then (spectrum.getRT :: tail.1, mi.sum :: tail.2)
    else (spectrum.getRT :: tail.1, (0 : ℚ) :: tail.2)

/-- The function `extract_eic` of `src/app_stable.py` (lines 108-136). -/
def extract_eic (exp : MSExperiment) (target_mass tolerance : ℚ) :
    List ℚ × List ℚ :=
  eicLoop target_mass tolerance exp.getSpectra

end AppStable

/-- One row of the HEAD-side peak table of `src/app.py` (lines 95-98):
columns `m/z` and `Intensity` only, no retention time. -/
structure MzRow where
  mz : ℚ
  intensity : ℚ
deriving Repr, DecidableEq

/-- Descending-intensity comparison used by the HEAD side's
`df.sort_values(by="Intensity", ascending=False)`. -/
def mzIntensityGE (a b : MzRow) : Prop := b.intensity ≤ a.intensity

instance : DecidableRel mzIntensityGE := fun a b =>
  inferInstanceAs (Decidable (b.intensity ≤ a.intensity))

instance : IsTotal MzRow mzIntensityGE := ⟨fun a b => le_total b.intensity a.intensity⟩

instance : IsTrans MzRow mzIntensityGE := ⟨fun _ _ _ h1 h2 => le_trans h2 h1⟩

namespace AppHead

/-- The HEAD-side `extract_mass_spectra` of `src/app.py` (lines 83-99): the
empty table when there are no spectra, otherwise a table built from the FIRST
spectrum only, columns m/z and intensity (no retention time), sorted by
intensity descending. -/
def extract_mass_spectra (exp : MSExperiment) : List MzRow :=
  match exp.getSpectra with
  | [] => []
  | spectrum :: _ =>
    List.insertionSort mzIntensityGE
      ((spectrum.mz_values.zip spectrum.intensity_values).map fun p => ⟨p.1, p.2⟩)

/-- The per-spectrum loop of the HEAD-side `extract_eic` of `src/app.py`
(lines 157-173): `for i, mz in enumerate(mz_values)` appends the intensity of
the FIRST peak within tolerance and `break`s; the for-else appends `0` when
no peak matches. The first hit of the enumerate scan is `List.find?` over the
zipped parallel arrays. -/
def eicLoop (target_mass tolerance : ℚ) : List Spectrum → List ℚ × List ℚ
  | [] => ([], [])
  | spectrum :: rest =>
    let tail := eicLoop target_mass tolerance rest
    match (spectrum.mz_values.zip spectrum.intensity_values).find?
        (fun p => |p.1 - target_mass| ≤ tolerance) with
    | some p => (spectrum.getRT :: tail.1, p.2 :: tail.2)
    | none => (spectrum.getRT :: tail.1, (0 : ℚ) :: tail.2)

/-- The HEAD-side `extract_eic` of `src/app.py` (lines 145-175): the Python
pair `(None, None)` when there are no spectra, otherwise the loop's two
lists. -/
def extract_eic (exp : MSExperiment) (target_mass tolerance : ℚ) :
    Option (List ℚ) × Option (List ℚ) :=
  if exp.getSpectra.length = 0 then (none, none)
  else
    let r := eicLoop target_mass tolerance exp.getSpectra
    (some r.1, some r.2)

end AppHead

/-! Concrete inputs used by counterexamples and witnesses. Decimal literals
of the spec's examples are written as exact rationals: `100.05 = 100 + 1/20`,
`100.02 = 100 + 1/50`, `0.05 = 1/20`. -/

/-- A single scan holding two peaks inside the window around `m/z = 100`
with tolerance `1/20`: one at the target, one at the upper boundary. -/
def sTwoPeaks : Spectrum := ⟨1, [(100, 50), (100 + 1/20, 30)]⟩

/-- An experiment whose only scan is `sTwoPeaks`. -/
def exTwoPeaks : MSExperiment := ⟨[sTwoPeaks], []⟩

/-- The end-to-end example of the spec: three scans at times 1, 2, 3 with
peaks `{1: [(100.0, 50), (100.05, 30)], 2: [(100.02, 20)], 3: [(200.0, 999)]}`. -/
def ex3 : MSExperiment :=
  ⟨[⟨1, [(100, 50), (100 + 1/20, 30)]⟩,
    ⟨2, [(100 + 1/50, 20)]⟩,
    ⟨3, [(200, 999)]⟩], []⟩

/-- One scan whose five peaks carry the intensities `[10, 50, 5, 999, 20]`
of the spec's top-N example. -/
def exTop : MSExperiment :=
  ⟨[⟨1, [(1, 10), (2, 50), (3, 5), (4, 999), (5, 20)]⟩], []⟩

/-- Two scans with one peak each, at distinct retention times. -/
def exTwoSpec : MSExperiment := ⟨[⟨1, [(100, 50)]⟩, ⟨2, [(200, 10)]⟩], []⟩

/-- An experiment with no spectra and no chromatogram records. -/
def emptyExp : MSExperiment := ⟨[], []⟩

/-- An experiment with one chromatogram record of two data points. -/
def exChrom : MSExperiment := ⟨[], [[⟨1, 5⟩, ⟨2, 7⟩]]⟩

/-! Helper lemmas shared by the claim theorems. -/

/-- Zipping the two parallel arrays of a spectrum recovers its peak list. -/
theorem zip_mz_intensity (s : Spectrum) :
    s.mz_values.zip s.intensity_values = s.peaks := by
  unfold Spectrum.mz_values Spectrum.intensity_values
  induction s.peaks with
  | nil => rfl
  | cons p l ih => simp [ih]

/-- The time component of the `extract_eic` loop lists every scan's
retention time in iteration order. -/
theorem eicLoop_fst (m t : ℚ) (l : List Spectrum) :
    (AppStable.eicLoop m t l).1 = l.map Spectrum.getRT := by
  induction l with
  | nil => rfl
  | cons s rest ih =>
    by_cases h : AppStable.matching_intensities m t s = []
    · simp [AppStable.eicLoop, h, ih]
    · simp [AppStable.eicLoop, h, ih]

/-- The intensity component of the `extract_eic` loop is, scan by scan, the
sum of the matching intensities (the explicit `0` of the no-match branch
coincides with the empty sum). -/
theorem eicLoop_snd (m t : ℚ) (l : List Spectrum) :
    (AppStable.eicLoop m t l).2
      = l.map fun s => (AppStable.matching_intensities m t s).sum := by
  induction l with
  | nil => rfl
  | cons s rest ih =>
    by_cases h : AppStable.matching_intensities m t s = []
    · simp [AppStable.eicLoop, h, ih]
    · simp [AppStable.eicLoop, h, ih]

/-- Membership in the selected-peak list is membership in the zipped arrays
plus the tolerance-window predicate. -/
theorem mem_matching_peaks (m t : ℚ) (s : Spectrum) (p : ℚ × ℚ) :
    p ∈ AppStable.matching_peaks m t s ↔
      p ∈ s.mz_values.zip s.intensity_values ∧ |p.1 - m| ≤ t := by
  simp [AppStable.matching_peaks, List.mem_filter]

/-- The sorted peak table is a permutation of the flattened row list. -/
theorem extract_mass_spectra_perm (exp : MSExperiment) :
    (AppStable.extract_mass_spectra exp).Perm (AppStable.flattenRows exp.getSpectra) := by
  unfold AppStable.extract_mass_spectra
  by_cases h : AppStable.flattenRows exp.getSpectra = []
  · simp [h]
  · simp only [h, ite_false]
    exact List.perm_insertionSort intensityGE _

/-- The peak table is sorted by intensity descending. -/
theorem extract_mass_spectra_sorted (exp : MSExperiment) :
    List.Sorted intensityGE (AppStable.extract_mass_spectra exp) := by
  unfold AppStable.extract_mass_spectra
  by_cases h : AppStable.flattenRows exp.getSpectra = []
  · simp [h]
  · simp only [h, ite_false]
    exact List.sorted_insertionSort intensityGE _

/-- In a list sorted descending by intensity, every kept row of `take n`
dominates every dropped row of `drop n`. -/
theorem sorted_take_drop {l : List PeakRow} (h : List.Sorted intensityGE l)
    (n : ℕ) : ∀ x ∈ l.take n, ∀ y ∈ l.drop n, y.intensity ≤ x.intensity := by
  rw [← List.take_append_drop n l] at h
  exact fun x hx y hy => (List.pairwise_append.mp h).2.2 x hx y hy

/-! Claim theorems. -/

/-- C1 (counterexample): in the HEAD-side `extract_eic` of `src/app.py`, the
scan `sTwoPeaks` has the two in-window intensities `[50, 30]` (their sum is
80), yet the output intensity is 50: the second in-window peak never
contributes, refuting completeness of the claimed contributing set. -/
theorem eic_window_counterexample :
    AppHead.extract_eic exTwoPeaks 100 (1/20) = (some [1], some [50])
    ∧ AppStable.matching_intensities 100 (1/20) sTwoPeaks = [50, 30]
    ∧ (AppHead.extract_eic exTwoPeaks 100 (1/20)).2
        ≠ some [(AppStable.matching_intensities 100 (1/20) sTwoPeaks).sum] := by
  refine ⟨?_, ?_, ?_⟩ <;>
    norm_num [AppHead.extract_eic, AppHead.eicLoop, AppStable.matching_intensities,
      AppStable.matching_peaks, Spectrum.mz_values, Spectrum.intensity_values,
      MSExperiment.getSpectra, Spectrum.getRT, exTwoPeaks, sTwoPeaks,
      List.find?, List.filter_cons, abs_le]

/-- C1 (amended): for the `extract_eic` of `src/app_stable.py` (and the
non-HEAD side of `src/app.py`), each scan's output intensity is the sum over
exactly the peaks with `abs(mz - target_mass) <= tolerance`: a zipped peak is
selected iff it lies in the window (soundness and completeness), and for a
nonnegative tolerance a peak at exactly `target_mass + tolerance` or
`target_mass - tolerance` is selected (inclusive boundary on both sides). -/
theorem eic_window_sound_complete (exp : MSExperiment) (m t : ℚ) :
    (AppStable.extract_eic exp m t).2
      = exp.getSpectra.map (fun s => (AppStable.matching_intensities m t s).sum)
    ∧ (∀ s : Spectrum, ∀ p : ℚ × ℚ,
        p ∈ AppStable.matching_peaks m t s ↔
          p ∈ s.mz_values.zip s.intensity_values ∧ |p.1 - m| ≤ t)
    ∧ (∀ s : Spectrum, ∀ p : ℚ × ℚ, 0 ≤ t →
        p ∈ s.mz_values.zip s.intensity_values →
        (p.1 = m + t ∨ p.1 = m - t) →
        p ∈ AppStable.matching_peaks m t s) := by
  refine ⟨eicLoop_snd m t exp.getSpectra, fun s p => mem_matching_peaks m t s p, ?_⟩
  intro s p ht hp hb
  refine (mem_matching_peaks m t s p).mpr ⟨hp, ?_⟩
  rcases hb with hb | hb <;> rw [hb] <;> simp [abs_le] <;> linarith

/-- C1 (witness): the boundary peak `(100 + 1/20, 30)` of `sTwoPeaks` is
selected for target 100 and tolerance `1/20`. -/
theorem eic_window_sound_complete_witness :
    ((100 : ℚ) + 1/20, (30 : ℚ)) ∈ AppStable.matching_peaks 100 (1/20) sTwoPeaks :=
  (eic_window_sound_complete exTwoPeaks 100 (1/20)).2.2 sTwoPeaks (100 + 1/20, 30)
    (by norm_num)
    (by simp [sTwoPeaks, Spectrum.mz_values, Spectrum.intensity_values])
    (Or.inl rfl)

/-- C2 (counterexample): on the spec's end-to-end example, the HEAD-side
`extract_eic` of `src/app.py` yields intensities `[50, 20, 0]`, not the
claimed per-scan sums `[80, 20, 0]`. -/
theorem eic_sum_counterexample :
    AppHead.extract_eic ex3 100 (1/20) = (some [1, 2, 3], some [50, 20, 0])
    ∧ (AppHead.extract_eic ex3 100 (1/20)).2 ≠ some [80, 20, 0] := by
  constructor <;>
    norm_num [AppHead.extract_eic, AppHead.eicLoop, Spectrum.mz_values,
      Spectrum.intensity_values, MSExperiment.getSpectra, Spectrum.getRT, ex3,
      List.find?, abs_le]

/-- C2 (amended): the `extract_eic` of `src/app_stable.py` (and the non-HEAD
side of `src/app.py`) emits one point per scan whose intensity is the sum of
that scan's matching intensities (zero when none match), and on the spec's
end-to-end example it yields times `[1, 2, 3]` with intensities `[80, 20, 0]`. -/
theorem eic_dense_sum (exp : MSExperiment) (m t : ℚ) :
    AppStable.extract_eic exp m t
      = (exp.getSpectra.map Spectrum.getRT,
         exp.getSpectra.map fun s => (AppStable.matching_intensities m t s).sum)
    ∧ AppStable.extract_eic ex3 100 (1/20) = ([1, 2, 3], [80, 20, 0]) := by
  constructor
  · exact Prod.ext (eicLoop_fst m t exp.getSpectra) (eicLoop_snd m t exp.getSpectra)
  · norm_num [AppStable.extract_eic, AppStable.eicLoop, AppStable.matching_intensities,
      AppStable.matching_peaks, Spectrum.mz_values, Spectrum.intensity_values,
      MSExperiment.getSpectra, Spectrum.getRT, ex3, List.filter_cons, abs_le,
      List.cons_ne_nil]

/-- C3 (counterexample): on an experiment with two scans of one peak each,
the HEAD-side `extract_mass_spectra` of `src/app.py` returns a single row
built from the first scan only (and without a retention-time column), not one
row per `(mass, intensity)` pair of every scan. -/
theorem mass_table_counterexample :
    AppHead.extract_mass_spectra exTwoSpec = [⟨100, 50⟩]
    ∧ AppStable.flattenRows exTwoSpec.getSpectra = [⟨1, 100, 50⟩, ⟨2, 200, 10⟩]
    ∧ (AppHead.extract_mass_spectra exTwoSpec).length
        ≠ (AppStable.flattenRows exTwoSpec.getSpectra).length := by
  refine ⟨?_, ?_, ?_⟩ <;>
    norm_num [AppHead.extract_mass_spectra, AppStable.flattenRows, Spectrum.mz_values,
      Spectrum.intensity_values, MSExperiment.getSpectra, Spectrum.getRT, exTwoSpec,
      List.insertionSort, List.orderedInsert, mzIntensityGE]

/-- C3 (amended): the `extract_mass_spectra` of `src/app_stable.py` (and the
non-HEAD side of `src/app.py`) returns a permutation of the flattened rows —
exactly one row per zipped `(mass, intensity)` pair of every scan, tagged
with that scan's retention time, with no deduplication — sorted by intensity
descending. -/
theorem mass_table_rows_sorted (exp : MSExperiment) :
    (AppStable.extract_mass_spectra exp).Perm (AppStable.flattenRows exp.getSpectra)
    ∧ List.Sorted intensityGE (AppStable.extract_mass_spectra exp) :=
  ⟨extract_mass_spectra_perm exp, extract_mass_spectra_sorted exp⟩

/-- C4 (confirmed): when the experiment has at least one chromatogram record,
`extract_chromatogram` of `src/app_stable.py` returns the first record's two
parallel arrays, each of length equal to the number of data points of that
record. -/
theorem chromatogram_lengths (exp : MSExperiment) (c : List ChromPeak)
    (rest : List (List ChromPeak)) (h : exp.getChromatograms = c :: rest) :
    AppStable.extract_chromatogram exp
      = (some (c.map ChromPeak.rt), some (c.map ChromPeak.intensity))
    ∧ (c.map ChromPeak.rt).length = c.length
    ∧ (c.map ChromPeak.intensity).length = c.length := by
  refine ⟨?_, List.length_map c ChromPeak.rt, List.length_map c ChromPeak.intensity⟩
  unfold AppStable.extract_chromatogram
  rw [h]

/-- C4 (witness): the single two-point chromatogram record of `exChrom`
produces two arrays of length two. -/
theorem chromatogram_lengths_witness :
    AppStable.extract_chromatogram exChrom
      = (some (([⟨1, 5⟩, ⟨2, 7⟩] : List ChromPeak).map ChromPeak.rt),
         some (([⟨1, 5⟩, ⟨2, 7⟩] : List ChromPeak).map ChromPeak.intensity))
    ∧ (([⟨1, 5⟩, ⟨2, 7⟩] : List ChromPeak).map ChromPeak.rt).length
        = ([⟨1, 5⟩, ⟨2, 7⟩] : List ChromPeak).length
    ∧ (([⟨1, 5⟩, ⟨2, 7⟩] : List ChromPeak).map ChromPeak.intensity).length
        = ([⟨1, 5⟩, ⟨2, 7⟩] : List ChromPeak).length :=
  chromatogram_lengths exChrom [⟨1, 5⟩, ⟨2, 7⟩] [] rfl

/-- C5 (counterexample): on the experiment with no spectra, the HEAD-side
`extract_eic` of `src/app.py` returns the Python pair `(None, None)`, not a
pair of empty sequences. -/
theorem eic_empty_counterexample :
    AppHead.extract_eic emptyExp 100 (1/20) = (none, none)
    ∧ (AppHead.extract_eic emptyExp 100 (1/20)).1 ≠ some [] := by
  exact ⟨rfl, by simp [AppHead.extract_eic, emptyExp, MSExperiment.getSpectra]⟩

/-- C5 (amended): when the spectrum sequence is empty, the `extract_eic` of
`src/app_stable.py` returns the pair of empty sequences, while the HEAD-side
`extract_eic` of `src/app.py` signals the same condition with `(None, None)`;
both are plain returns, never an error. -/
theorem eic_empty (exp : MSExperiment) (m t : ℚ) (h : exp.getSpectra = []) :
    AppStable.extract_eic exp m t = ([], [])
    ∧ AppHead.extract_eic exp m t = (none, none) := by
  constructor
  · unfold AppStable.extract_eic
    rw [h]
    rfl
  · unfold AppHead.extract_eic
    rw [h]
    rfl

/-- C5 (witness): both variants evaluated on the concrete empty experiment. -/
theorem eic_empty_witness :
    AppStable.extract_eic emptyExp 100 (1/20) = ([], [])
    ∧ AppHead.extract_eic emptyExp 100 (1/20) = (none, none) :=
  eic_empty emptyExp 100 (1/20) rfl

/-- C6 (confirmed): the retention times returned by `extract_eic` of
`src/app_stable.py` are exactly the scans' retention times in iteration
order; hence when the spectra are ordered by retention time ascending, the
output is sorted by retention time ascending. -/
theorem eic_times_order (exp : MSExperiment) (m t : ℚ) :
    (AppStable.extract_eic exp m t).1 = exp.getSpectra.map Spectrum.getRT
    ∧ (List.Sorted (· ≤ ·) (exp.getSpectra.map Spectrum.getRT) →
        List.Sorted (· ≤ ·) (AppStable.extract_eic exp m t).1) := by
  refine ⟨eicLoop_fst m t exp.getSpectra, fun hs => ?_⟩
  rw [AppStable.extract_eic, eicLoop_fst m t exp.getSpectra]
  exact hs

/-- C6 (witness): the example experiment's scans are time-ordered, so its
extracted chromatogram's times are sorted ascending. -/
theorem eic_times_order_witness :
    List.Sorted (· ≤ ·) (AppStable.extract_eic ex3 100 (1/20)).1 :=
  (eic_times_order ex3 100 (1/20)).2
    (by norm_num [ex3, MSExperiment.getSpectra, Spectrum.getRT, List.sorted_cons])

/-- C7 (confirmed): when the experiment has no chromatogram records,
`extract_chromatogram` of `src/app_stable.py` returns the Python pair
`(None, None)`; it is a plain return, never a raised or escalated error. -/
theorem chromatogram_empty (exp : MSExperiment) (h : exp.getChromatograms = []) :
    AppStable.extract_chromatogram exp = (none, none) := by
  unfold AppStable.extract_chromatogram
  rw [h]

/-- C7 (witness): evaluated on the concrete experiment without chromatogram
records. -/
theorem chromatogram_empty_witness :
    AppStable.extract_chromatogram emptyExp = (none, none) :=
  chromatogram_empty emptyExp rfl

/-- C8 (confirmed): top-N selection (`mass_df.head(n)`) over the sorted peak
table keeps rows that dominate every dropped row in intensity, and on the
spec's example table with intensities `[10, 50, 5, 999, 20]` the top-3 rows
carry intensities `[999, 50, 20]` in that order. -/
theorem top_n_peaks :
    (∀ (exp : MSExperiment) (n : ℕ),
      ∀ x ∈ AppStable.head (AppStable.extract_mass_spectra exp) n,
      ∀ y ∈ (AppStable.extract_mass_spectra exp).drop n,
      y.intensity ≤ x.intensity)
    ∧ (AppStable.head (AppStable.extract_mass_spectra exTop) 3).map PeakRow.intensity
        = [999, 50, 20] := by
  constructor
  · intro exp n x hx y hy
    exact sorted_take_drop (extract_mass_spectra_sorted exp) n x hx y hy
  · norm_num [AppStable.head, AppStable.extract_mass_spectra, AppStable.flattenRows,
      Spectrum.mz_values, Spectrum.intensity_values, MSExperiment.getSpectra,
      Spectrum.getRT, exTop, List.insertionSort, List.orderedInsert, intensityGE,
      List.cons_ne_nil]

/-- C8 (witness): in the example table, the kept top-3 row of intensity 999
dominates the dropped row of intensity 5. -/
theorem top_n_peaks_witness :
    (⟨1, 3, 5⟩ : PeakRow).intensity ≤ (⟨1, 4, 999⟩ : PeakRow).intensity :=
  top_n_peaks.1 exTop 3 ⟨1, 4, 999⟩
    (by norm_num [AppStable.head, AppStable.extract_mass_spectra, AppStable.flattenRows,
        Spectrum.mz_values, Spectrum.intensity_values, MSExperiment.getSpectra,
        Spectrum.getRT, exTop, List.insertionSort, List.orderedInsert, intensityGE,
        List.cons_ne_nil])
    ⟨1, 3, 5⟩
    (by norm_num [AppStable.extract_mass_spectra, AppStable.flattenRows,
        Spectrum.mz_values, Spectrum.intensity_values, MSExperiment.getSpectra,
        Spectrum.getRT, exTop, List.insertionSort, List.orderedInsert, intensityGE,
        List.cons_ne_nil])

/-- C9 (confirmed): `extract_eic` of `src/app_stable.py` is a pure function
of the spectrum sequence it iterates: two runs over identical spectra yield
identical outputs, the same values in the same order. -/
theorem eic_deterministic (e1 e2 : MSExperiment) (m t : ℚ)
    (h : e1.getSpectra = e2.getSpectra) :
    AppStable.extract_eic e1 m t = AppStable.extract_eic e2 m t := by
  unfold AppStable.extract_eic
  rw [h]

/-- C9 (witness): two runs on the example experiment agree. -/
theorem eic_deterministic_witness :
    AppStable.extract_eic ex3 100 (1/20) = AppStable.extract_eic ex3 100 (1/20) :=
  eic_deterministic ex3 ex3 100 (1/20) rfl

/-- C10 (confirmed): the two sequences returned by `extract_eic` of
`src/app_stable.py` have equal length, namely the number of spectra of the
experiment: one output point per input scan. -/
theorem eic_lengths (exp : MSExperiment) (m t : ℚ) :
    (AppStable.extract_eic exp m t).1.length = exp.getSpectra.length
    ∧ (AppStable.extract_eic exp m t).2.length = exp.getSpectra.length := by
  unfold AppStable.extract_eic
  rw [eicLoop_fst m t exp.getSpectra, eicLoop_snd m t exp.getSpectra]
  simp
